import Mathlib

/-!
# Verification of the topic-explainer pipeline

Shallow embedding of the `topic-explainer-agent` sources
(`planner.py`, `orchestrator.py`, `explainer.py`, `critic.py`,
`notes_creator.py`) and proofs of the testable properties stated in the
design document.

Python strings are modelled as `List Char`.  Python's text-level library
operations (`str.strip`, `str.lower`, `str.isalnum`, `str.splitlines`,
`os.path` helpers) are modelled character-for-character; the Unicode-aware
predicates (`isalnum`, `lower`) are modelled faithfully on the Latin-1
range (code points < 0x100), which is the range exercised by every theorem
and counterexample below; `splitlines` is modelled for LF-terminated
ASCII text (Python additionally splits on CR and rarer Unicode line
boundaries, none of which occur in the artifacts this pipeline writes).
-/

namespace TopicExplainer

/-- Python strings, modelled as lists of characters. -/
abbrev Str := List Char

/-- The characters Python's `str.strip()` (no argument) removes at either
end of a Latin-1 string: space, TAB, LF, VT, FF, CR, FS, GS, RS, US,
NEL (0x85) and NBSP (0xA0). -/
def isPySpace (c : Char) : Bool :=
  decide (c.toNat = 32) || decide (9 ≤ c.toNat ∧ c.toNat ≤ 13) ||
  decide (28 ≤ c.toNat ∧ c.toNat ≤ 31) || decide (c.toNat = 133) ||
  decide (c.toNat = 160)

/-- Python `s.lstrip()`: drop leading whitespace. -/
def lstrip (s : Str) : Str := s.dropWhile isPySpace

/-- Python `s.rstrip()`: drop trailing whitespace. -/
def rstrip (s : Str) : Str := (s.reverse.dropWhile isPySpace).reverse

/-- Python `s.strip()`: drop whitespace at both ends. -/
def pyStrip (s : Str) : Str := rstrip (lstrip s)

/-- Python `str.lower()`, character-wise, on the Latin-1 range:
`A`–`Z` and `À`–`Þ` (except `×`) map down by 32; every other code point
below 0x100 is fixed. -/
def pyLowerChar (c : Char) : Char :=
  if 65 ≤ c.toNat ∧ c.toNat ≤ 90 then Char.ofNat (c.toNat + 32)
  else if 0xC0 ≤ c.toNat ∧ c.toNat ≤ 0xDE ∧ c.toNat ≠ 0xD7 then Char.ofNat (c.toNat + 32)
  else c

/-- Python `str.isalnum()` for a single character, on the Latin-1 range:
ASCII digits and letters, the Latin-1 letters `ª µ º À`–`ÿ` (except the
multiplication and division signs) and the numeric characters
`² ³ ¹ ¼ ½ ¾`. -/
def pyIsAlnumChar (c : Char) : Bool :=
  let n := c.toNat
  decide (48 ≤ n ∧ n ≤ 57) || decide (65 ≤ n ∧ n ≤ 90) || decide (97 ≤ n ∧ n ≤ 122) ||
  decide (n = 0xAA) || decide (n = 0xB2) || decide (n = 0xB3) || decide (n = 0xB5) ||
  decide (n = 0xB9) || decide (n = 0xBA) || decide (n = 0xBC) || decide (n = 0xBD) ||
  decide (n = 0xBE) ||
  (decide (0xC0 ≤ n ∧ n ≤ 0xFF) && !decide (n = 0xD7) && !decide (n = 0xF7))

namespace Planner

/-- From `planner.py`, `sanitize_filename` (lines 99–105):
lower-case and strip the topic, replace spaces with hyphens, keep only
alphanumeric characters, hyphens and underscores, and fall back to
`"lecture"` if nothing is left.  (`str.replace(" ", "-")` with a
one-character pattern acts character-wise.) -/
def sanitize_filename (topic : Str) : Str :=
  let safe := pyStrip (topic.map pyLowerChar)
  let safe := safe.map fun c => if c = ' ' then '-' else c
  let safe := safe.filter fun c => pyIsAlnumChar c || c == '-' || c == '_'
  if safe = [] then "lecture".toList else safe

end Planner

namespace Orchestrator

/-- From `orchestrator.py`, `sanitize_filename` (lines 21–26): a verbatim copy
of the planner's slug rules, kept in sync by hand in the source. -/
def sanitize_filename (topic : Str) : Str :=
  let safe := pyStrip (topic.map pyLowerChar)
  let safe := safe.map fun c => if c = ' ' then '-' else c
  let safe := safe.filter fun c => pyIsAlnumChar c || c == '-' || c == '_'
  if safe = [] then "lecture".toList else safe

end Orchestrator

/-- The character set `[a-z0-9_-]` from the spec's slug property. -/
def slugCharOk (c : Char) : Bool :=
  decide (97 ≤ c.toNat ∧ c.toNat ≤ 122) || decide (48 ≤ c.toNat ∧ c.toNat ≤ 57) ||
  decide (c.toNat = 45) || decide (c.toNat = 95)

/-! ## Helper lemmas on the character and string model -/

theorem char_eq_iff_toNat {c d : Char} : c = d ↔ c.toNat = d.toNat := by
  constructor
  · rintro rfl; rfl
  · intro h
    exact Char.eq_of_val_eq (UInt32.eq_of_toBitVec_eq (BitVec.eq_of_toNat_eq h))

theorem toNat_ofNat_valid {n : Nat} (h : n < 0xD800) : (Char.ofNat n).toNat = n := by
  unfold Char.ofNat
  rw [dif_pos (Or.inl h)]
  rfl

theorem mem_of_mem_lstrip {c : Char} {s : Str} (h : c ∈ lstrip s) : c ∈ s :=
  (List.dropWhile_sublist _).mem h

theorem mem_of_mem_rstrip {c : Char} {s : Str} (h : c ∈ rstrip s) : c ∈ s := by
  unfold rstrip at h
  rw [List.mem_reverse] at h
  exact List.mem_reverse.mp ((List.dropWhile_sublist _).mem h)

theorem mem_of_mem_pyStrip {c : Char} {s : Str} (h : c ∈ pyStrip s) : c ∈ s :=
  mem_of_mem_lstrip (mem_of_mem_rstrip h)

/-- The list that `sanitize_filename` tests against `[]`. -/
def slugFiltered (topic : Str) : Str :=
  ((pyStrip (topic.map pyLowerChar)).map fun c => if c = ' ' then '-' else c).filter
    fun c => pyIsAlnumChar c || c == '-' || c == '_'

theorem sanitize_filename_eq (topic : Str) :
    Planner.sanitize_filename topic =
      if slugFiltered topic = [] then "lecture".toList else slugFiltered topic := rfl

theorem pyLowerChar_ascii {a : Char} (h : a.toNat < 128) :
    (pyLowerChar a).toNat < 128 ∧
      ¬ (65 ≤ (pyLowerChar a).toNat ∧ (pyLowerChar a).toNat ≤ 90) := by
  unfold pyLowerChar
  split
  · rename_i h1
    rw [toNat_ofNat_valid (by omega)]
    omega
  · split
    · rename_i h1 h2
      omega
    · rename_i h1 h2
      omega

theorem pyLowerChar_fixed_of_not_alnum {a : Char} (h : pyIsAlnumChar a = false) :
    pyLowerChar a = a := by
  simp only [pyIsAlnumChar, Bool.or_eq_true, Bool.and_eq_true, Bool.not_eq_true',
    decide_eq_true_eq, decide_eq_false_iff_not, Bool.or_eq_false_iff,
    Bool.and_eq_false_iff, decide_eq_false_iff_not, Bool.not_eq_false',
    decide_eq_true_eq] at h
  unfold pyLowerChar
  split
  · rename_i h1
    omega
  · split
    · rename_i h1 h2
      omega
    · rfl

theorem slugChar_of_kept {c : Char} (hlt : c.toNat < 128)
    (hup : ¬ (65 ≤ c.toNat ∧ c.toNat ≤ 90))
    (hkeep : (pyIsAlnumChar c || c == '-' || c == '_') = true) : slugCharOk c = true := by
  have hd : ('-' : Char).toNat = 45 := by decide
  have hu : ('_' : Char).toNat = 95 := by decide
  simp only [pyIsAlnumChar, slugCharOk, Bool.or_eq_true, Bool.and_eq_true,
    Bool.not_eq_true', decide_eq_true_eq, decide_eq_false_iff_not, beq_iff_eq,
    char_eq_iff_toNat, hd, hu] at hkeep ⊢
  omega

/-! ## Claims C1 and C9 (slug function) -/

/-- C1 (counterexample).  The claim fails on the code twice over: the
topic `"-"` contains no alphanumeric character, yet the slug is `"-"`,
not the fallback `"lecture"`; and the Latin-1 topic `"é"` (which Python
lower-cases to itself and classifies as alphanumeric) yields the slug
`"é"`, which is outside `[a-z0-9_-]`. -/
theorem sanitize_filename_claim_false :
    Planner.sanitize_filename ['-'] = ['-'] ∧
    (['-'].any pyIsAlnumChar) = false ∧
    Planner.sanitize_filename ['-'] ≠ "lecture".toList ∧
    (Planner.sanitize_filename ['é']).all slugCharOk = false := by
  decide

/-- C1 (amended).  For every ASCII topic the slug is non-empty (the model
is a pure function, so determinism is immediate) and consists only of
characters in `[a-z0-9_-]`; and if the topic contains no character that
is alphanumeric, a hyphen, an underscore, or a space, the result is the
fixed fallback token `"lecture"`. -/
theorem sanitize_filename_ok (topic : Str) (hascii : ∀ c ∈ topic, c.toNat < 128) :
    Planner.sanitize_filename topic ≠ [] ∧
    (∀ c ∈ Planner.sanitize_filename topic, slugCharOk c = true) ∧
    ((∀ c ∈ topic, pyIsAlnumChar c = false ∧ c ≠ '-' ∧ c ≠ '_' ∧ c ≠ ' ') →
      Planner.sanitize_filename topic = "lecture".toList) := by
  refine ⟨?_, ?_, ?_⟩
  · rw [sanitize_filename_eq]
    split
    · decide
    · assumption
  · intro c hc
    rw [sanitize_filename_eq] at hc
    split at hc
    · exact List.all_eq_true.mp (by decide : ("lecture".toList).all slugCharOk = true) c hc
    · unfold slugFiltered at hc
      rw [List.mem_filter] at hc
      obtain ⟨hmem, hpred⟩ := hc
      rw [List.mem_map] at hmem
      obtain ⟨b, hb, rfl⟩ := hmem
      have hb' := mem_of_mem_pyStrip hb
      rw [List.mem_map] at hb'
      obtain ⟨a, ha, rfl⟩ := hb'
      obtain ⟨hba, hbu⟩ := pyLowerChar_ascii (hascii a ha)
      by_cases hsp : pyLowerChar a = ' '
      · rw [if_pos hsp] at hpred ⊢
        decide
      · rw [if_neg hsp] at hpred ⊢
        exact slugChar_of_kept hba hbu hpred
  · intro hnone
    rw [sanitize_filename_eq]
    rw [if_pos ?_]
    unfold slugFiltered
    rw [List.filter_eq_nil_iff]
    intro c hc
    rw [List.mem_map] at hc
    obtain ⟨b, hb, rfl⟩ := hc
    have hb' := mem_of_mem_pyStrip hb
    rw [List.mem_map] at hb'
    obtain ⟨a, ha, rfl⟩ := hb'
    obtain ⟨han, hdash, hund, hspace⟩ := hnone a ha
    rw [pyLowerChar_fixed_of_not_alnum han]
    rw [if_neg hspace]
    simp only [Bool.or_eq_true, beq_iff_eq, not_or, Bool.not_eq_true]
    exact ⟨⟨han, hdash⟩, hund⟩

/-- C1 witness for the amended theorem, at the concrete topic
`"My Topic 3!"`. -/
theorem sanitize_filename_ok_witness :
    Planner.sanitize_filename "My Topic 3!".toList = "my-topic-3".toList ∧
    (∀ c ∈ Planner.sanitize_filename "My Topic 3!".toList, slugCharOk c = true) := by
  refine ⟨by decide, (sanitize_filename_ok "My Topic 3!".toList (by decide)).2.1⟩

/-- C9.  The pipeline coordinator (`orchestrator.py`) and the planner
(`planner.py`) compute identical slugs for every topic, so the output
directory the coordinator checks is the one the planner writes to. -/
theorem orchestrator_planner_slug_agree :
    ∀ topic : Str, Orchestrator.sanitize_filename topic = Planner.sanitize_filename topic :=
  fun _ => rfl

/-! ## Claim C3 (approval predicate) -/

namespace Critic

/-- The approval sentinel, `critic.py` line 47. -/
def APPROVED_SIGNAL : Str := "VERDICT: APPROVED".toList

/-- From `critic.py`, `is_approved` (lines 173–175): Python's
`APPROVED_SIGNAL in critique_text`, i.e. contiguous-substring
containment. -/
def is_approved (critique_text : Str) : Bool :=
  decide (APPROVED_SIGNAL <:+: critique_text)

end Critic

/-- C3.  `is_approved` holds exactly when the fixed sentinel literal
occurs as a contiguous substring of the critique, and a critique carrying
only the proper fragment `"VERDICT:"` of the sentinel is not approved. -/
theorem is_approved_iff_sentinel_substring :
    (∀ s : Str, Critic.is_approved s = true ↔ Critic.APPROVED_SIGNAL <:+: s) ∧
    Critic.is_approved "Issues remain. VERDICT: Revise the intro.".toList = false := by
  refine ⟨fun s => ?_, by decide⟩
  simp [Critic.is_approved]

/-! ## POSIX path helpers

`os.path.basename`, `os.path.dirname`, `os.path.join` (two arguments) and
`os.path.splitext`, as implemented by CPython's `posixpath`, on `Str`.
`os.path.abspath` is modelled as the identity: the theorems below are
stated for paths already in normalized absolute (or plain relative) form,
which is the only effect `abspath` has beyond prefixing the process's
working directory. -/

/-- CPython `posixpath.basename`: everything after the last `'/'`. -/
def pyBasename (p : Str) : Str := (p.reverse.takeWhile fun c => c != '/').reverse

/-- Everything up to and including the last `'/'` (empty if no slash):
the `head` value inside `posixpath.dirname`. -/
def dirnameRaw (p : Str) : Str := (p.reverse.dropWhile fun c => c != '/').reverse

/-- CPython `posixpath.dirname`: the raw head, with trailing slashes stripped
unless it is empty or consists only of slashes. -/
def pyDirname (p : Str) : Str :=
  if dirnameRaw p = [] ∨ ((dirnameRaw p).all fun c => c == '/') = true then dirnameRaw p
  else ((dirnameRaw p).reverse.dropWhile fun c => c == '/').reverse

/-- CPython `posixpath.join` on two arguments. -/
def joinPath (a b : Str) : Str :=
  if b.head? = some '/' then b
  else if a = [] ∨ a.getLast? = some '/' then a ++ b
  else a ++ '/' :: b

/-- The root (first component) of `posixpath.splitext`: the path without
its extension.  The extension starts at the last dot of the basename,
provided some earlier character of the basename is not a dot. -/
def splitextRoot (p : Str) : Str :=
  let b := pyBasename p
  let pre := (b.reverse.dropWhile fun c => c != '.').reverse
  if pre = [] then p
  else if pre.dropLast.all fun c => c == '.' then p
  else p.take (p.length - b.length) ++ pre.dropLast

namespace Explainer

/-- From `explainer.py`, `derive_explanation_path` (lines 127–144), with
`os.path.abspath` modelled as the identity (see above). -/
def derive_explanation_path (outline_path : Str) : Str :=
  let directory := pyDirname outline_path
  let bname := pyBasename outline_path
  if bname = "outline.txt".toList then joinPath directory "explanation.txt".toList
  else if "-outline.txt".toList <:+ bname then
    joinPath directory
      ((bname.take (bname.length - ("-outline.txt".toList).length)) ++ "-explanation.txt".toList)
  else joinPath directory (splitextRoot bname ++ "-explanation.txt".toList)

end Explainer

namespace NotesCreator

/-- From `notes_creator.py`, `derive_outline_path` (lines 625–633), with
`os.path.abspath` modelled as the identity. -/
def derive_outline_path (explanation_path : Str) : Str :=
  let directory := pyDirname explanation_path
  let bname := pyBasename explanation_path
  if bname = "explanation.txt".toList then joinPath directory "outline.txt".toList
  else if "-explanation.txt".toList <:+ bname then
    joinPath directory
      ((bname.take (bname.length - ("-explanation.txt".toList).length)) ++ "-outline.txt".toList)
  else joinPath directory "outline.txt".toList

end NotesCreator

/-! ### Path lemmas -/

theorem pyBasename_no_slash {p : Str} : ∀ c ∈ pyBasename p, c ≠ '/' := by
  intro c hc
  unfold pyBasename at hc
  rw [List.mem_reverse] at hc
  have := List.mem_takeWhile_imp hc
  simpa using this

/-- The image of `pyDirname` is empty, ends in a non-slash, or is all
slashes. -/
theorem pyDirname_inv (p : Str) :
    pyDirname p = [] ∨ (pyDirname p).getLast? ≠ some '/' ∨
      (pyDirname p).all (fun c => c == '/') = true := by
  unfold pyDirname
  split
  · rename_i h
    rcases h with h | h
    · exact Or.inl h
    · exact Or.inr (Or.inr h)
  · rename_i h
    right; left
    rw [← List.head?_reverse, List.reverse_reverse]
    intro hhead
    cases hdw : (dirnameRaw p).reverse.dropWhile (fun c => c == '/') with
    | nil => rw [hdw] at hhead; simp at hhead
    | cons x xs =>
      rw [hdw] at hhead
      simp only [List.head?_cons, Option.some.injEq] at hhead
      subst hhead
      have := List.head?_dropWhile_not (fun c => c == '/') ((dirnameRaw p).reverse)
      rw [hdw] at this
      simp at this

theorem pyBasename_join {d b : Str} (hb : ∀ c ∈ b, c ≠ '/') :
    pyBasename (joinPath d b) = b := by
  have hball : ∀ c ∈ b.reverse, (fun c => c != '/') c = true := by
    intro c hc
    simp only [bne_iff_ne, ne_eq]
    exact hb c (List.mem_reverse.mp hc)
  unfold joinPath
  split
  · rename_i hhead
    cases b with
    | nil => simp at hhead
    | cons x xs =>
      simp only [List.head?_cons, Option.some.injEq] at hhead
      exact absurd hhead (hb x (List.mem_cons_self x xs))
  · split
    · rename_i _ hd
      unfold pyBasename
      rw [List.reverse_append, List.takeWhile_append_of_pos hball]
      rcases hd with hd | hd
      · subst hd; simp
      · cases hrev : d.reverse with
        | nil =>
          have : d = [] := by simpa using congrArg List.reverse hrev
          subst this; simp at hd
        | cons x xs =>
          have hx : x = '/' := by
            rw [← List.head?_reverse, hrev] at hd
            simpa using hd
          subst hx
          simp [List.takeWhile_cons]
    · unfold pyBasename
      rw [show d ++ '/' :: b = (d ++ ['/']) ++ b by simp]
      rw [List.reverse_append, List.takeWhile_append_of_pos hball]
      simp [List.takeWhile_cons]

theorem pyDirname_join {d b : Str}
    (hinv : d = [] ∨ d.getLast? ≠ some '/' ∨ d.all (fun c => c == '/') = true)
    (hb : ∀ c ∈ b, c ≠ '/') (hbne : b ≠ []) :
    pyDirname (joinPath d b) = d := by
  have hball : ∀ c ∈ b.reverse, (fun c => c != '/') c = true := by
    intro c hc
    simp only [bne_iff_ne, ne_eq]
    exact hb c (List.mem_reverse.mp hc)
  unfold joinPath
  split
  · rename_i hhead
    cases b with
    | nil => simp at hhead
    | cons x xs =>
      simp only [List.head?_cons, Option.some.injEq] at hhead
      exact absurd hhead (hb x (List.mem_cons_self x xs))
  · split
    · rename_i _ hd
      rcases hd with hd | hd
      · subst hd
        simp only [List.nil_append]
        unfold pyDirname dirnameRaw
        rw [List.dropWhile_eq_nil_iff.mpr (fun c hc => hball c hc)]
        simp
      · -- d ends in '/', hence by the invariant d is all slashes
        have hdall : d.all (fun c => c == '/') = true := by
          rcases hinv with h | h | h
          · subst h; simp at hd
          · exact absurd hd h
          · exact h
        unfold pyDirname dirnameRaw
        rw [List.reverse_append, List.dropWhile_append_of_pos hball]
        cases hrev : d.reverse with
        | nil =>
          have : d = [] := by simpa using congrArg List.reverse hrev
          subst this; simp at hd
        | cons x xs =>
          have hx : x = '/' := by
            rw [← List.head?_reverse, hrev] at hd
            simpa using hd
          subst hx
          rw [List.dropWhile_cons_of_neg (by simp)]
          rw [← hrev, List.reverse_reverse]
          rw [if_pos (Or.inr hdall)]
    · rename_i _ hd
      rw [not_or] at hd
      obtain ⟨hdne, hdlast⟩ := hd
      unfold pyDirname dirnameRaw
      rw [show d ++ '/' :: b = (d ++ ['/']) ++ b by simp]
      rw [List.reverse_append, List.dropWhile_append_of_pos hball]
      rw [List.reverse_append]
      simp only [List.reverse_cons, List.reverse_nil, List.nil_append, List.cons_append,
        List.nil_append]
      rw [List.dropWhile_cons_of_neg (by simp)]
      rw [show ('/' :: d.reverse).reverse = d ++ ['/'] by simp]
      rw [if_neg ?_]
      · rw [List.reverse_append]
        simp only [List.reverse_cons, List.reverse_nil, List.nil_append, List.cons_append,
          List.nil_append]
        rw [List.dropWhile_cons_of_pos (by simp)]
        cases hrev : d.reverse with
        | nil =>
          have : d = [] := by simpa using congrArg List.reverse hrev
          exact absurd this hdne
        | cons x xs =>
          have hx : x ≠ '/' := by
            rw [← List.head?_reverse, hrev] at hdlast
            simpa using hdlast
          rw [List.dropWhile_cons_of_neg (by simpa using hx)]
          rw [← hrev, List.reverse_reverse]
      · rw [not_or]
        constructor
        · simp
        · intro hall
          rw [List.all_eq_true] at hall
          cases hrev : d.reverse with
          | nil =>
            have : d = [] := by simpa using congrArg List.reverse hrev
            exact absurd this hdne
          | cons x xs =>
            have hxd : x ∈ d := by
              rw [← List.mem_reverse, hrev]
              exact List.mem_cons_self x xs
            have hx : x ≠ '/' := by
              rw [← List.head?_reverse, hrev] at hdlast
              simpa using hdlast
            have := hall x (List.mem_append_left _ hxd)
            simp only [beq_iff_eq] at this
            exact hx this

/-! ## Claim C10 (path derivation round trip) -/

/-- C10.  For a normalized outline path whose basename is `outline.txt`
or ends in `-outline.txt`, the notes creator's outline-path derivation is
a left inverse of the explainer's explanation-path derivation, so the
notes creator locates exactly the outline the explanation came from. -/
theorem derive_outline_explanation_round_trip (p : Str)
    (hnorm : joinPath (pyDirname p) (pyBasename p) = p)
    (hb : pyBasename p = "outline.txt".toList ∨ "-outline.txt".toList <:+ pyBasename p) :
    NotesCreator.derive_outline_path (Explainer.derive_explanation_path p) = p := by
  have hinv := pyDirname_inv p
  have hnos := @pyBasename_no_slash p
  rcases hb with hb1 | hb2
  · rw [show Explainer.derive_explanation_path p =
        joinPath (pyDirname p) "explanation.txt".toList by
      unfold Explainer.derive_explanation_path
      rw [if_pos hb1]]
    have hxs : ∀ c ∈ "explanation.txt".toList, c ≠ '/' := by decide
    have hbq := pyBasename_join (d := pyDirname p) hxs
    have hdq := pyDirname_join hinv hxs (by decide)
    unfold NotesCreator.derive_outline_path
    rw [hbq, hdq, if_pos rfl, ← hb1, hnorm]
  · obtain ⟨t, ht⟩ := hb2
    have htn : ∀ c ∈ t, c ≠ '/' := by
      intro c hc
      exact hnos c (by rw [← ht]; exact List.mem_append_left _ hc)
    have hlen : (pyBasename p).length = t.length + 12 := by
      rw [← ht]; simp
    have hbne : pyBasename p ≠ "outline.txt".toList := by
      intro h
      have := congrArg List.length h
      rw [hlen] at this
      simp at this
    have htake : (pyBasename p).take ((pyBasename p).length - ("-outline.txt".toList).length)
        = t := by
      rw [← ht, List.length_append]
      rw [show t.length + ("-outline.txt".toList).length - ("-outline.txt".toList).length
          = t.length by omega]
      exact List.take_left t _
    rw [show Explainer.derive_explanation_path p =
        joinPath (pyDirname p) (t ++ "-explanation.txt".toList) by
      unfold Explainer.derive_explanation_path
      rw [if_neg hbne, if_pos ⟨t, ht⟩, htake]]
    have hxs : ∀ c ∈ t ++ "-explanation.txt".toList, c ≠ '/' := by
      intro c hc
      rcases List.mem_append.mp hc with h | h
      · exact htn c h
      · have hlit : ∀ x ∈ "-explanation.txt".toList, x ≠ '/' := by decide
        exact hlit c h
    have hbq := pyBasename_join (d := pyDirname p) hxs
    have hdq := pyDirname_join hinv hxs (by simp)
    unfold NotesCreator.derive_outline_path
    rw [hbq, hdq]
    rw [if_neg ?_, if_pos (List.suffix_append t _)]
    · rw [show (t ++ "-explanation.txt".toList).take
          ((t ++ "-explanation.txt".toList).length - ("-explanation.txt".toList).length) = t by
        rw [List.length_append]
        rw [show t.length + ("-explanation.txt".toList).length -
            ("-explanation.txt".toList).length = t.length by omega]
        exact List.take_left t _]
      rw [ht, hnorm]
    · intro h
      have := congrArg List.length h
      simp at this

/-- C10 witness at the concrete outline path
`"outputs/machine-learning/machine-learning-outline.txt"`. -/
theorem derive_outline_explanation_round_trip_witness :
    NotesCreator.derive_outline_path
        (Explainer.derive_explanation_path
          "outputs/machine-learning/machine-learning-outline.txt".toList)
      = "outputs/machine-learning/machine-learning-outline.txt".toList := by
  apply derive_outline_explanation_round_trip
  · decide
  · right; decide

/-! ## Backend adapter (streamed chat completion) -/

/-- One line of the streamed backend response, after UTF-8 decoding and
stripping: either not a parseable JSON object (which also covers blank
lines), or a parsed chunk carrying the `message.content` token fragment
(empty when the field is absent) and the `done` completion flag. -/
inductive Line where
  | malformed
  | chunk (token : Str) (done : Bool)

/-- Failure modes of a stage, following the spec's §7 taxonomy.
`uncaughtTimeout` stands for the uncaught `socket.timeout` a mid-stream
read timeout raises: observationally a fatal non-zero exit. -/
inductive Err where
  | missingArtifact
  | emptyContent
  | backendUnreachable
  | emptyResponse
  | uncaughtTimeout
deriving DecidableEq

/-- The outcome of one backend call, as determined by the external
service: connection failure (`urllib.error.URLError`, which includes
connect-phase timeouts), a read timeout mid-stream, or a finite sequence
of delivered response lines. -/
inductive BackendOutcome where
  | unreachable
  | timeoutCrash
  | stream (lines : List Line)

/-- The token-collection loop of `query_ollama` (`explainer.py` lines
93–109, textually identical in `critic.py` lines 95–111): accumulate the
non-empty token fragments in arrival order, stopping after the first
chunk whose `done` flag is set; unparseable lines are skipped. -/
def collectTokens : List Line → List Str
  | [] => []
  | .malformed :: rest => collectTokens rest
  | .chunk t d :: rest =>
    if t = [] then (if d then [] else collectTokens rest)
    else t :: (if d then [] else collectTokens rest)

/-- The adapter `query_ollama` (`explainer.py` lines 68–124; `critic.py` lines
74–124 differs only in log strings): join the collected tokens, strip,
and fail on a connection failure or an empty stripped result. -/
def query_ollama : BackendOutcome → Except Err Str
  | .unreachable => .error .backendUnreachable
  | .timeoutCrash => .error .uncaughtTimeout
  | .stream lines =>
    if pyStrip (collectTokens lines).flatten = [] then .error .emptyResponse
    else .ok (pyStrip (collectTokens lines).flatten)

/-- Specification side of C7: the prefix of the stream up to and
including the first chunk with the completion flag set. -/
def streamPrefixToDone : List Line → List Line
  | [] => []
  | .chunk t true :: _ => [.chunk t true]
  | l :: rest => l :: streamPrefixToDone rest

/-- Specification side of C7: the token fragment a single line
contributes. -/
def lineToken : Line → Option Str
  | .chunk t _ => if t = [] then none else some t
  | .malformed => none

theorem collectTokens_eq_spec (lines : List Line) :
    collectTokens lines = (streamPrefixToDone lines).filterMap lineToken := by
  induction lines with
  | nil => rfl
  | cons l rest ih =>
    cases l with
    | malformed =>
      simpa [collectTokens, streamPrefixToDone, lineToken, List.filterMap_cons] using ih
    | chunk t d =>
      cases d with
      | false =>
        by_cases ht : t = [] <;>
          simp [collectTokens, streamPrefixToDone, lineToken, List.filterMap_cons, ht, ih]
      | true =>
        by_cases ht : t = [] <;>
          simp [collectTokens, streamPrefixToDone, lineToken, List.filterMap_cons, ht]

/-! ## Claim C7 (stream assembly) -/

/-- C7.  For every finite line sequence, the backend adapter returns the
in-order concatenation of the token fragments of the parseable chunks up
to and including the first done-flagged chunk (or the whole stream if
none); malformed and token-less lines contribute nothing and are not
fatal; an empty or whitespace-only concatenation is the fatal
`EmptyResponse`. -/
theorem query_ollama_stream_spec :
    ∀ lines : List Line,
      query_ollama (.stream lines) =
        if pyStrip ((streamPrefixToDone lines).filterMap lineToken).flatten = [] then
          .error .emptyResponse
        else .ok (pyStrip ((streamPrefixToDone lines).filterMap lineToken).flatten) := by
  intro lines
  simp only [query_ollama, collectTokens_eq_spec]

/-! ## Filesystem and artifact-stage model -/

/-- The filesystem visible to the pipeline: a map from paths to file
contents. -/
def FS := Str → Option Str

/-- Writing a file: `open(p, "w").write(content)`. -/
def FS.write (fs : FS) (p : Str) (content : Str) : FS :=
  fun q => if q = p then some content else fs q

/-- Removing a file: `os.remove(p)`. -/
def FS.remove (fs : FS) (p : Str) : FS :=
  fun q => if q = p then none else fs q

/-- From `load_file` (`explainer.py` lines 47–58, `critic.py` lines 52–62):
a missing file or a file that is blank after stripping is fatal;
otherwise the stripped contents are returned. -/
def load_file (fs : FS) (filepath : Str) : Except Err Str :=
  match fs filepath with
  | none => .error .missingArtifact
  | some raw =>
    if pyStrip raw = [] then .error .emptyContent else .ok (pyStrip raw)

/-- The explainer system prompt file `prompts/explainer_system_prompt.txt`
(resolved against the script directory in the source; modelled as a fixed
path). -/
def EXPLAINER_PROMPT_PATH : Str := "prompts/explainer_system_prompt.txt".toList

/-- The reviser system prompt file `prompts/reviser_system_prompt.txt`. -/
def REVISER_PROMPT_PATH : Str := "prompts/reviser_system_prompt.txt".toList

/-- The critic system prompt file `prompts/critic_system_prompt.txt`. -/
def CRITIC_PROMPT_PATH : Str := "prompts/critic_system_prompt.txt".toList

/-- The constant `MODEL_NAME` (explainer.py line 40, critic.py line 43). -/
def MODEL_NAME : Str := "llama3.2:3b".toList

/-- The `'=' * 60` ruler used in artifact headers. -/
def eq60 : Str := List.replicate 60 '='

/-- Result of one stage process: normal completion (exit 0) or a fatal
exit (non-zero), each carrying the filesystem as the process leaves it. -/
inductive StageOut where
  | ok (fs : FS)
  | fatal (e : Err) (fs : FS)

/-- Whether a stage exited normally. -/
def StageOut.isOk : StageOut → Bool
  | .ok _ => true
  | .fatal _ _ => false

/-- The filesystem a stage leaves behind. -/
def StageOut.fsOf : StageOut → FS
  | .ok fs => fs
  | .fatal _ fs => fs

/-- Total split on LF; always returns one more segment than the number
of `'\n'` occurrences. -/
def splitNl : Str → List Str
  | [] => [[]]
  | c :: rest =>
    if c = '\n' then [] :: splitNl rest
    else
      match splitNl rest with
      | [] => [[c]]
      | l :: ls => (c :: l) :: ls

/-- Python `str.splitlines()` for LF-terminated ASCII text: split on
`'\n'` with no trailing empty segment when the text ends in a newline,
and `[]` on the empty string. -/
def pySplitlines (s : Str) : List Str :=
  if s = [] then []
  else if s.getLast? = some '\n' then (splitNl s).dropLast
  else splitNl s

namespace Explainer

/-- The header `module_generate` writes (`explainer.py` lines 178–187). -/
def genHeader (ts source : Str) : Str :=
  "LECTURE EXPLANATION\n".toList ++ eq60 ++ "\n".toList ++
  "Generated : ".toList ++ ts ++ "\n".toList ++
  "Model     : ".toList ++ MODEL_NAME ++ "\n".toList ++
  "Source    : ".toList ++ source ++ "\n".toList ++
  eq60 ++ "\n\n".toList

/-- From `module_generate` (`explainer.py` lines 149–193): load the outline
and the system prompt, query the backend, then (and only then) write the
headed explanation to the derived path.  The wall-clock timestamp is the
parameter `ts`; the backend's behaviour is the parameter `o`. -/
def module_generate (fs : FS) (outline_path : Str) (o : BackendOutcome) (ts : Str) :
    StageOut :=
  match load_file fs outline_path with
  | .error e => .fatal e fs
  | .ok _outline_text =>
  match load_file fs EXPLAINER_PROMPT_PATH with
  | .error e => .fatal e fs
  | .ok _sys =>
  match query_ollama o with
  | .error e => .fatal e fs
  | .ok explanation =>
    .ok (fs.write (derive_explanation_path outline_path)
      (genHeader ts (pyBasename outline_path) ++ explanation))

/-- The `Source` header extraction in `module_revise` (`explainer.py`
lines 234–240): the first line starting with `"Source    :"` yields
`line.split(":", 1)[1].strip()`; with no such line the explanation
file's basename is used.  (The `split(":", 1)[1]` subscript is guarded
by the prefix test, which guarantees a colon.) -/
def get_source_name (explanation : Str) (explanation_path : Str) : Str :=
  match (pySplitlines explanation).find? (fun l => ("Source    :".toList).isPrefixOf l) with
  | some line => pyStrip ((line.dropWhile fun c => c != ':').drop 1)
  | none => pyBasename explanation_path

/-- The header `module_revise` writes (`explainer.py` lines 242–250);
the f-string's embedded newlines are written as explicit characters. -/
def revHeader (ts source critique_name : Str) : Str :=
  "LECTURE EXPLANATION".toList ++ '\n' ::
  (eq60 ++ '\n' ::
  ("Revised   : ".toList ++ ts ++ '\n' ::
  ("Model     : ".toList ++ MODEL_NAME ++ '\n' ::
  ("Source    : ".toList ++ source ++ '\n' ::
  ("Critique  : ".toList ++ critique_name ++ '\n' ::
  (eq60 ++ '\n' :: '\n' :: []))))))

/-- From `module_revise` (`explainer.py` lines 198–258): load the current
explanation, the critique and the system prompt, query the backend, and
only then overwrite the explanation in place with a fresh header that
carries forward the source-outline reference read from the prior
content. -/
def module_revise (fs : FS) (explanation_path critique_path : Str) (o : BackendOutcome)
    (ts : Str) : StageOut :=
  match load_file fs explanation_path with
  | .error e => .fatal e fs
  | .ok explanation =>
  match load_file fs critique_path with
  | .error e => .fatal e fs
  | .ok _critique =>
  match load_file fs REVISER_PROMPT_PATH with
  | .error e => .fatal e fs
  | .ok _sys =>
  match query_ollama o with
  | .error e => .fatal e fs
  | .ok revised =>
    .ok (fs.write explanation_path
      (revHeader ts (get_source_name explanation explanation_path)
        (pyBasename critique_path) ++ revised))

end Explainer

/-! ## Claim C6 (backend failure writes nothing) -/

/-- The backend-call failures named by C6: connection failure, timeout,
or a stream whose concatenated tokens strip to nothing. -/
def backendFails : BackendOutcome → Prop
  | .unreachable => True
  | .timeoutCrash => True
  | .stream lines => pyStrip (collectTokens lines).flatten = []

theorem query_ollama_fails {o : BackendOutcome} (h : backendFails o) :
    ∃ e, query_ollama o = .error e := by
  cases o with
  | unreachable => exact ⟨.backendUnreachable, rfl⟩
  | timeoutCrash => exact ⟨.uncaughtTimeout, rfl⟩
  | stream lines =>
    have h' : pyStrip (collectTokens lines).flatten = [] := h
    exact ⟨.emptyResponse, by simp only [query_ollama, if_pos h']⟩

/-- C6.  If the backend call fails to connect, times out, or strips to
an empty response, every stage exits fatally and leaves the filesystem
exactly as it found it: the generate and revise stages write only after
a successful query, and the critique stage's backend call itself errors
(its persistence is the controller's, which only runs on success). -/
theorem backend_failure_no_artifact_write {o : BackendOutcome} (hfail : backendFails o) :
    (∀ (fs : FS) (outline_path ts : Str),
      ∃ e, Explainer.module_generate fs outline_path o ts = .fatal e fs) ∧
    (∀ (fs : FS) (explanation_path critique_path ts : Str),
      ∃ e, Explainer.module_revise fs explanation_path critique_path o ts = .fatal e fs) ∧
    (∃ e, query_ollama o = .error e) := by
  obtain ⟨eq, heq⟩ := query_ollama_fails hfail
  refine ⟨?_, ?_, ⟨eq, heq⟩⟩
  · intro fs outline_path ts
    unfold Explainer.module_generate
    cases h1 : load_file fs outline_path with
    | error e => exact ⟨e, rfl⟩
    | ok t1 =>
      cases h2 : load_file fs EXPLAINER_PROMPT_PATH with
      | error e => exact ⟨e, rfl⟩
      | ok t2 => exact ⟨eq, by rw [heq]⟩
  · intro fs explanation_path critique_path ts
    unfold Explainer.module_revise
    cases h1 : load_file fs explanation_path with
    | error e => exact ⟨e, rfl⟩
    | ok t1 =>
      cases h2 : load_file fs critique_path with
      | error e => exact ⟨e, rfl⟩
      | ok t2 =>
        cases h3 : load_file fs REVISER_PROMPT_PATH with
        | error e => exact ⟨e, rfl⟩
        | ok t3 => exact ⟨eq, by rw [heq]⟩

/-- The empty filesystem, used by concrete witnesses. -/
def emptyFS : FS := fun _ => none

/-- C6 witness: the unreachable-backend outcome at concrete stage
inputs. -/
theorem backend_failure_no_artifact_write_witness :
    backendFails .unreachable ∧
    (∃ e, Explainer.module_generate emptyFS "o.txt".toList .unreachable "t".toList
      = .fatal e emptyFS) ∧
    (∃ e, Explainer.module_revise emptyFS "e.txt".toList "c.txt".toList .unreachable "t".toList
      = .fatal e emptyFS) :=
  have hb : backendFails .unreachable := True.intro
  ⟨hb,
   (backend_failure_no_artifact_write hb).1 emptyFS "o.txt".toList "t".toList,
   (backend_failure_no_artifact_write hb).2.1 emptyFS "e.txt".toList "c.txt".toList
     "t".toList⟩

/-! ### Strip and line-splitting lemmas -/

theorem dropWhile_idem {α} {p : α → Bool} (l : List α) :
    (l.dropWhile p).dropWhile p = l.dropWhile p := by
  cases h : l.dropWhile p with
  | nil => rfl
  | cons x xs =>
    have hpx := List.head?_dropWhile_not p l
    rw [h] at hpx
    simp only [List.head?_cons] at hpx
    rw [List.dropWhile_cons_of_neg (by simp [hpx])]

theorem lstrip_idem (s : Str) : lstrip (lstrip s) = lstrip s := dropWhile_idem s

theorem rstrip_idem (s : Str) : rstrip (rstrip s) = rstrip s := by
  unfold rstrip
  rw [List.reverse_reverse, dropWhile_idem]

theorem rstrip_isPrefix (s : Str) : rstrip s <+: s := by
  have h := List.dropWhile_suffix (l := s.reverse) isPySpace
  rw [← List.reverse_prefix] at h
  simpa [rstrip] using h

theorem lstrip_prefix_fixed {u t : Str} (hu : lstrip u = u) (ht : t <+: u) :
    lstrip t = t := by
  cases t with
  | nil => rfl
  | cons c cs =>
    obtain ⟨k, hk⟩ := ht
    have hcu : u = c :: (cs ++ k) := by rw [← hk]; simp
    have hc : isPySpace c = false := by
      by_contra hcon
      rw [Bool.not_eq_false] at hcon
      rw [hcu] at hu
      unfold lstrip at hu
      rw [List.dropWhile_cons_of_pos hcon] at hu
      have hlen := congrArg List.length hu
      have hle : ((cs ++ k).dropWhile isPySpace).length ≤ (cs ++ k).length :=
        (List.dropWhile_sublist _).length_le
      rw [List.length_cons] at hlen
      omega
    unfold lstrip
    rw [List.dropWhile_cons_of_neg (by simp [hc])]

theorem pyStrip_idem (s : Str) : pyStrip (pyStrip s) = pyStrip s := by
  unfold pyStrip
  rw [lstrip_prefix_fixed (lstrip_idem s) (rstrip_isPrefix (lstrip s)), rstrip_idem]

theorem pyStrip_cons_space {c : Char} {s : Str} (h : isPySpace c = true) :
    pyStrip (c :: s) = pyStrip s := by
  unfold pyStrip lstrip
  rw [List.dropWhile_cons_of_pos h]

theorem rstrip_eq_nil_iff {s : Str} : rstrip s = [] ↔ ∀ c ∈ s, isPySpace c = true := by
  unfold rstrip
  rw [List.reverse_eq_nil_iff, List.dropWhile_eq_nil_iff]
  constructor
  · intro h c hc
    exact h c (List.mem_reverse.mpr hc)
  · intro h c hc
    exact h c (List.mem_reverse.mp hc)

theorem pyStrip_cons_ne_nil {c : Char} {s : Str} (hc : isPySpace c = false) :
    pyStrip (c :: s) ≠ [] := by
  unfold pyStrip lstrip
  rw [List.dropWhile_cons_of_neg (by simp [hc])]
  intro h
  rw [rstrip_eq_nil_iff] at h
  have := h c (List.mem_cons_self c s)
  rw [hc] at this
  exact Bool.false_ne_true this

theorem rstrip_append_right {a b : Str} (h : ∃ c ∈ b, isPySpace c = false) :
    rstrip (a ++ b) = a ++ rstrip b := by
  obtain ⟨c, hc, hcp⟩ := h
  have hne : b.reverse.dropWhile isPySpace ≠ [] := by
    intro hnil
    rw [List.dropWhile_eq_nil_iff] at hnil
    have := hnil c (List.mem_reverse.mpr hc)
    rw [hcp] at this
    exact Bool.false_ne_true this
  unfold rstrip
  rw [List.reverse_append, List.dropWhile_append, if_neg (by simpa using hne)]
  rw [List.reverse_append, List.reverse_reverse]

theorem rstrip_ends_nospace {s : Str} {c : Char} (h : (rstrip s).getLast? = some c) :
    isPySpace c = false := by
  unfold rstrip at h
  rw [List.getLast?_reverse] at h
  have := List.head?_dropWhile_not isPySpace s.reverse
  rw [h] at this
  simpa using this

theorem rstrip_ne_nil_of_mem {s : Str} {c : Char} (hc : c ∈ s) (hcp : isPySpace c = false) :
    rstrip s ≠ [] := by
  intro h
  rw [rstrip_eq_nil_iff] at h
  have := h c hc
  rw [hcp] at this
  exact Bool.false_ne_true this

theorem splitNl_ne_nil (s : Str) : splitNl s ≠ [] := by
  cases s with
  | nil => simp [splitNl]
  | cons c rest =>
    simp only [splitNl]
    split
    · simp
    · split <;> simp

theorem splitNl_append_newline {a : Str} (ha : '\n' ∉ a) (b : Str) :
    splitNl (a ++ '\n' :: b) = a :: splitNl b := by
  induction a with
  | nil => simp [splitNl]
  | cons c cs ih =>
    have hc : ¬ c = '\n' := by
      intro h; exact ha (h ▸ List.mem_cons_self c cs)
    have ha' : '\n' ∉ cs := fun h => ha (List.mem_cons_of_mem c h)
    rw [List.cons_append]
    simp only [splitNl, if_neg hc, ih ha']

theorem splitNl_no_newline {s : Str} : ∀ l ∈ splitNl s, '\n' ∉ l := by
  induction s with
  | nil =>
    intro l hl
    simp [splitNl] at hl
    subst hl
    simp
  | cons c rest ih =>
    intro l hl
    simp only [splitNl] at hl
    split at hl
    · rename_i hc
      rcases List.mem_cons.mp hl with rfl | hl'
      · simp
      · exact ih l hl'
    · rename_i hc
      cases hsp : splitNl rest with
      | nil => exact absurd hsp (splitNl_ne_nil rest)
      | cons x xs =>
        rw [hsp] at hl
        rcases List.mem_cons.mp hl with rfl | hl'
        · intro hmem
          rcases List.mem_cons.mp hmem with h | h
          · exact hc h.symm
          · exact ih x (by rw [hsp]; exact List.mem_cons_self x xs) h
        · exact ih l (by rw [hsp]; exact List.mem_cons_of_mem x hl')

theorem pySplitlines_no_newline {s : Str} : ∀ l ∈ pySplitlines s, '\n' ∉ l := by
  intro l hl
  unfold pySplitlines at hl
  split at hl
  · simp at hl
  · split at hl
    · exact splitNl_no_newline l ((List.dropLast_sublist _).subset hl)
    · exact splitNl_no_newline l hl

/-! ### The source-outline reference and its preservation (claim C5) -/

/-- The source-outline reference recorded in an explanation artifact, as
`module_revise` itself reads it (through `load_file`'s strip): the value
of the first `"Source    :"` header line of the stripped content. -/
def sourceRef (content : Str) : Option Str :=
  ((pySplitlines (pyStrip content)).find? fun l => ("Source    :".toList).isPrefixOf l).map
    fun line => pyStrip ((line.dropWhile fun c => c != ':').drop 1)

theorem sourceRef_props {raw s : Str} (h : sourceRef raw = some s) :
    pyStrip s = s ∧ '\n' ∉ s := by
  unfold sourceRef at h
  rw [Option.map_eq_some'] at h
  obtain ⟨line, hfind, hval⟩ := h
  constructor
  · rw [← hval, pyStrip_idem]
  · intro hmem
    rw [← hval] at hmem
    have h1 := mem_of_mem_pyStrip hmem
    have h2 := (List.drop_sublist 1 _).subset h1
    have h3 := (List.dropWhile_sublist _).subset h2
    exact pySplitlines_no_newline line (List.mem_of_find?_eq_some hfind) h3

theorem pyStrip_eq_rstrip {s : Str} {c : Char} (hc : s.head? = some c)
    (hcp : isPySpace c = false) : pyStrip s = rstrip s := by
  cases s with
  | nil => simp at hc
  | cons x xs =>
    simp only [List.head?_cons, Option.some.injEq] at hc
    subst hc
    unfold pyStrip lstrip
    rw [List.dropWhile_cons_of_neg (by simp [hcp])]

theorem newline_not_mem_eq60 : '\n' ∉ eq60 := by
  intro h
  rcases List.mem_replicate.mp h with ⟨_, h2⟩
  exact absurd h2 (by decide)

/-- Splitting the revision header (everything up to and including the
`Source` line's newline) followed by any line-boundary-free tail `C`
ending in a non-space character. -/
theorem pySplitlines_revHeader {ts s C : Str} (hts : '\n' ∉ ts) (hs : '\n' ∉ s)
    (hCne : C ≠ []) (hClast : ∀ c, C.getLast? = some c → isPySpace c = false) :
    pySplitlines ("LECTURE EXPLANATION".toList ++ '\n' ::
        (eq60 ++ '\n' ::
          (("Revised   : ".toList ++ ts) ++ '\n' ::
            (("Model     : ".toList ++ MODEL_NAME) ++ '\n' ::
              (("Source    : ".toList ++ s) ++ '\n' :: C))))) =
      "LECTURE EXPLANATION".toList :: eq60 :: ("Revised   : ".toList ++ ts) ::
        ("Model     : ".toList ++ MODEL_NAME) :: ("Source    : ".toList ++ s) ::
        splitNl C := by
  obtain ⟨c, hc⟩ : ∃ c, C.getLast? = some c := by
    cases hC : C.getLast? with
    | none => rw [List.getLast?_eq_none_iff] at hC; exact absurd hC hCne
    | some c => exact ⟨c, rfl⟩
  have harg : "LECTURE EXPLANATION".toList ++ '\n' ::
        (eq60 ++ '\n' ::
          (("Revised   : ".toList ++ ts) ++ '\n' ::
            (("Model     : ".toList ++ MODEL_NAME) ++ '\n' ::
              (("Source    : ".toList ++ s) ++ '\n' :: C)))) =
      ("LECTURE EXPLANATION".toList ++ '\n' ::
        (eq60 ++ '\n' ::
          (("Revised   : ".toList ++ ts) ++ '\n' ::
            (("Model     : ".toList ++ MODEL_NAME) ++ '\n' ::
              (("Source    : ".toList ++ s) ++ ['\n']))))) ++ C := by
    simp [List.append_assoc]
  unfold pySplitlines
  rw [if_neg (by simp [show "LECTURE EXPLANATION".toList =
    'L' :: "ECTURE EXPLANATION".toList from by decide])]
  rw [harg, List.getLast?_append, hc, Option.or_some]
  rw [if_neg (by
    intro hcon
    simp only [Option.some.injEq] at hcon
    subst hcon
    exact absurd (hClast '\n' hc) (by decide))]
  rw [← harg]
  rw [splitNl_append_newline (by decide)]
  rw [splitNl_append_newline newline_not_mem_eq60]
  rw [splitNl_append_newline (by
    intro h
    rcases List.mem_append.mp h with h | h
    · exact absurd h (by decide)
    · exact hts h)]
  rw [splitNl_append_newline (by decide)]
  rw [splitNl_append_newline (by
    intro h
    rcases List.mem_append.mp h with h | h
    · exact absurd h (by decide)
    · exact hs h)]

theorem not_sourceLine_revised (ts : Str) :
    ¬ (("Source    :".toList).isPrefixOf ("Revised   : ".toList ++ ts) = true) := by
  rw [show "Source    :".toList = 'S' :: "ource    :".toList from by decide,
    show "Revised   : ".toList = 'R' :: "evised   : ".toList from by decide,
    List.cons_append, List.isPrefixOf_cons₂]
  simp

theorem sourceLine_extract {s : Str} (hstrip : pyStrip s = s) :
    pyStrip ((("Source    : ".toList ++ s).dropWhile fun c => c != ':').drop 1) = s := by
  have hsrc : "Source    : ".toList ++ s = "Source    ".toList ++ ':' :: ' ' :: s := by
    rw [show "Source    : ".toList = "Source    ".toList ++ [':', ' '] from by decide]
    simp
  rw [hsrc, List.dropWhile_append_of_pos (by decide),
    List.dropWhile_cons_of_neg (by simp)]
  simp only [List.drop_succ_cons, List.drop_zero]
  rw [pyStrip_cons_space (by decide), hstrip]

/-- Revising writes a header whose `Source` field reads back unchanged:
for any critique name, revised body and newline-free timestamp, the
source reference of the new artifact content is exactly `s`. -/
theorem sourceRef_revHeader {ts s : Str} (hts : '\n' ∉ ts) (hs : '\n' ∉ s)
    (hstrip : pyStrip s = s) (cb body : Str) :
    sourceRef (Explainer.revHeader ts s cb ++ body) = some s := by
  have hsplit : Explainer.revHeader ts s cb ++ body =
      ("LECTURE EXPLANATION".toList ++ '\n' ::
        (eq60 ++ '\n' ::
          (("Revised   : ".toList ++ ts) ++ '\n' ::
            (("Model     : ".toList ++ MODEL_NAME) ++ '\n' ::
              (("Source    : ".toList ++ s) ++ ['\n']))))) ++
      ("Critique  : ".toList ++ cb ++ '\n' :: (eq60 ++ '\n' :: '\n' :: body)) := by
    unfold Explainer.revHeader
    simp [List.append_assoc]
  unfold sourceRef
  rw [hsplit]
  have hCmem : 'C' ∈ "Critique  : ".toList ++ cb ++ '\n' :: (eq60 ++ '\n' :: '\n' :: body) := by
    rw [show "Critique  : ".toList = 'C' :: "ritique  : ".toList from by decide]
    rw [List.cons_append, List.cons_append]
    exact List.mem_cons_self _ _
  have hstrip2 : pyStrip (("LECTURE EXPLANATION".toList ++ '\n' ::
        (eq60 ++ '\n' ::
          (("Revised   : ".toList ++ ts) ++ '\n' ::
            (("Model     : ".toList ++ MODEL_NAME) ++ '\n' ::
              (("Source    : ".toList ++ s) ++ ['\n']))))) ++
      ("Critique  : ".toList ++ cb ++ '\n' :: (eq60 ++ '\n' :: '\n' :: body))) =
      ("LECTURE EXPLANATION".toList ++ '\n' ::
        (eq60 ++ '\n' ::
          (("Revised   : ".toList ++ ts) ++ '\n' ::
            (("Model     : ".toList ++ MODEL_NAME) ++ '\n' ::
              (("Source    : ".toList ++ s) ++ ['\n']))))) ++
      rstrip ("Critique  : ".toList ++ cb ++ '\n' :: (eq60 ++ '\n' :: '\n' :: body)) := by
    rw [pyStrip_eq_rstrip (c := 'L') (by
      rw [show "LECTURE EXPLANATION".toList = 'L' :: "ECTURE EXPLANATION".toList from by decide]
      rfl) (by decide)]
    exact rstrip_append_right ⟨'C', hCmem, by decide⟩
  rw [hstrip2]
  have harg2 : ("LECTURE EXPLANATION".toList ++ '\n' ::
        (eq60 ++ '\n' ::
          (("Revised   : ".toList ++ ts) ++ '\n' ::
            (("Model     : ".toList ++ MODEL_NAME) ++ '\n' ::
              (("Source    : ".toList ++ s) ++ ['\n']))))) ++
      rstrip ("Critique  : ".toList ++ cb ++ '\n' :: (eq60 ++ '\n' :: '\n' :: body)) =
      "LECTURE EXPLANATION".toList ++ '\n' ::
        (eq60 ++ '\n' ::
          (("Revised   : ".toList ++ ts) ++ '\n' ::
            (("Model     : ".toList ++ MODEL_NAME) ++ '\n' ::
              (("Source    : ".toList ++ s) ++ '\n' ::
                rstrip ("Critique  : ".toList ++ cb ++
                  '\n' :: (eq60 ++ '\n' :: '\n' :: body)))))) := by
    simp [List.append_assoc]
  rw [harg2]
  rw [pySplitlines_revHeader hts hs
    (rstrip_ne_nil_of_mem hCmem (by decide))
    (fun c hc => rstrip_ends_nospace hc)]
  rw [List.find?_cons_of_neg _ (by decide)]
  rw [List.find?_cons_of_neg _ (by decide)]
  rw [List.find?_cons_of_neg _ (not_sourceLine_revised ts)]
  rw [List.find?_cons_of_neg _ (by decide)]
  rw [List.find?_cons_of_pos _ (by
    rw [ List.isPrefixOf_iff_prefix]
    rw [show "Source    : ".toList = "Source    :".toList ++ [' '] from by decide,
      List.append_assoc]
    exact List.prefix_append _ _)]
  rw [show (Option.map (fun line => pyStrip ((line.dropWhile fun c => c != ':').drop 1))
      (some ("Source    : ".toList ++ s))) =
    some (pyStrip ((("Source    : ".toList ++ s).dropWhile fun c => c != ':').drop 1)) from rfl]
  rw [sourceLine_extract hstrip]

theorem get_source_name_of_sourceRef {rawE s : Str} (h : sourceRef rawE = some s)
    (ep : Str) : Explainer.get_source_name (pyStrip rawE) ep = s := by
  unfold sourceRef at h
  rw [Option.map_eq_some'] at h
  obtain ⟨line, hfind, hval⟩ := h
  unfold Explainer.get_source_name
  rw [hfind]
  exact hval

/-- One revision-stage invocation's environment: the critique file it is
pointed at, the backend outcome, and the wall-clock timestamp. -/
structure RevStep where
  critique_path : Str
  backend : BackendOutcome
  ts : Str

/-- Consecutive invocations of the revision stage on the same explanation
artifact, stopping at the first fatal exit. -/
def reviseMany (explanation_path : Str) : List RevStep → FS → StageOut
  | [], fs => .ok fs
  | st :: rest, fs =>
    match Explainer.module_revise fs explanation_path st.critique_path st.backend st.ts with
    | .fatal e fs' => .fatal e fs'
    | .ok fs' => reviseMany explanation_path rest fs'

/-- One successful revision leaves the explanation in exactly the
`revHeader` shape: fixed title, ruler and `Model` lines, `Source` still
`s`, and only the `Revised` timestamp, the `Critique` name and the body
taken from this invocation's inputs. -/
theorem module_revise_source_step {fs : FS} {ep cp ts : Str} {o : BackendOutcome}
    {raw s : Str} {fs' : FS} (hraw : fs ep = some raw) (hsrc : sourceRef raw = some s)
    (hts : '\n' ∉ ts)
    (hok : Explainer.module_revise fs ep cp o ts = .ok fs') :
    ∃ body, fs' ep = some (Explainer.revHeader ts s (pyBasename cp) ++ body) ∧
      sourceRef (Explainer.revHeader ts s (pyBasename cp) ++ body) = some s := by
  obtain ⟨hstrip, hs⟩ := sourceRef_props hsrc
  unfold Explainer.module_revise at hok
  cases hE : load_file fs ep with
  | error e => rw [hE] at hok; exact absurd hok (by simp)
  | ok expl =>
    rw [hE] at hok
    have hexp : expl = pyStrip raw := by
      simp only [load_file, hraw] at hE
      by_cases hne : pyStrip raw = []
      · rw [if_pos hne] at hE
        exact absurd hE (by simp)
      · rw [if_neg hne] at hE
        injection hE with h
        exact h.symm
    cases hC : load_file fs cp with
    | error e => rw [hC] at hok; exact absurd hok (by simp)
    | ok critiqueText =>
      rw [hC] at hok
      cases hP : load_file fs REVISER_PROMPT_PATH with
      | error e => rw [hP] at hok; exact absurd hok (by simp)
      | ok sysPrompt =>
        rw [hP] at hok
        cases hq : query_ollama o with
        | error e => rw [hq] at hok; exact absurd hok (by simp)
        | ok revised =>
          rw [hq] at hok
          injection hok with hfs
          refine ⟨revised, ?_, sourceRef_revHeader hts hs hstrip _ _⟩
          rw [← hfs]
          unfold FS.write
          rw [if_pos rfl, hexp, get_source_name_of_sourceRef hsrc]

theorem reviseMany_preserve_aux (ep s : Str) :
    ∀ (steps : List RevStep) (fs : FS) (raw : Str),
      fs ep = some raw → sourceRef raw = some s → (∀ st ∈ steps, '\n' ∉ st.ts) →
      (reviseMany ep steps fs).isOk = true →
      (∃ raw', (reviseMany ep steps fs).fsOf ep = some raw' ∧ sourceRef raw' = some s) ∧
      (∀ rest last, steps = rest ++ [last] →
        ∃ body, (reviseMany ep steps fs).fsOf ep =
          some (Explainer.revHeader last.ts s (pyBasename last.critique_path) ++ body)) := by
  intro steps
  induction steps with
  | nil =>
    intro fs raw h1 h2 _ _
    refine ⟨⟨raw, by simpa [reviseMany, StageOut.fsOf] using h1, h2⟩, ?_⟩
    intro rest last hsplit
    exact absurd hsplit.symm (List.append_ne_nil_of_right_ne_nil rest (by simp))
  | cons st tail ih =>
    intro fs raw h1 h2 hts hok
    simp only [reviseMany] at hok ⊢
    cases hrev : Explainer.module_revise fs ep st.critique_path st.backend st.ts with
    | fatal e fs' =>
      rw [hrev] at hok
      simp [StageOut.isOk] at hok
    | ok fs' =>
      rw [hrev] at hok
      obtain ⟨body0, hb1, hb2⟩ :=
        module_revise_source_step h1 h2 (hts st (List.mem_cons_self st tail)) hrev
      have ihall := ih fs'
        (Explainer.revHeader st.ts s (pyBasename st.critique_path) ++ body0)
        hb1 hb2 (fun st' hst' => hts st' (List.mem_cons_of_mem st hst')) hok
      refine ⟨ihall.1, ?_⟩
      intro rest last hsplit
      cases rest with
      | nil =>
        simp only [List.nil_append] at hsplit
        injection hsplit with ha hb
        subst ha
        subst hb
        exact ⟨body0, hb1⟩
      | cons r0 rest' =>
        injection hsplit with ha hb
        exact ihall.2 rest' last hb

/-- C5.  For an explanation artifact whose header carries a
source-outline reference `s` (as the revision stage reads it), any
sequence of successful revision-stage invocations with newline-free
timestamps (a) leaves the recorded source-outline reference exactly `s`,
and (b) leaves the artifact in exactly the `revHeader` shape built from
the final revision's inputs: the title line, ruler lines and `Model`
field are the fixed header constants, the `Source` field is still `s`,
and only the `Revised` timestamp and the `Critique` reference (and the
document body) come from the last step — so across the K revisions only
the revision timestamp and the critique-applied field of the header
change. -/
theorem revisions_preserve_source_reference
    (ep : Str) (steps : List RevStep) (fs : FS) (raw s : Str)
    (hraw : fs ep = some raw) (hsrc : sourceRef raw = some s)
    (hts : ∀ st ∈ steps, '\n' ∉ st.ts)
    (hok : (reviseMany ep steps fs).isOk = true) :
    (∃ raw', (reviseMany ep steps fs).fsOf ep = some raw' ∧ sourceRef raw' = some s) ∧
    (∀ rest last, steps = rest ++ [last] →
      ∃ body, (reviseMany ep steps fs).fsOf ep =
        some (Explainer.revHeader last.ts s (pyBasename last.critique_path) ++ body)) :=
  reviseMany_preserve_aux ep s steps fs raw hraw hsrc hts hok

/-- The explanation artifact used by the C5 witness. -/
def c5Raw : Str :=
  ("LECTURE EXPLANATION\n" ++
   "============\n" ++
   "Generated : 2025-01-01 09:00:00\n" ++
   "Model     : llama3.2:3b\n" ++
   "Source    : physics-outline.txt\n" ++
   "============\n\n" ++
   "Gravity pulls things down.").toList

/-- The filesystem for the C5 witness. -/
def c5FS : FS := fun p =>
  if p = "outputs/physics/explanation.txt".toList then some c5Raw
  else if p = "critique.txt".toList then some "Fix the intro.".toList
  else if p = REVISER_PROMPT_PATH then some "You are a reviser.".toList
  else none

/-- The two revision steps of the C5 witness. -/
def c5Steps : List RevStep :=
  [⟨"critique.txt".toList, .stream [.chunk "Gravity, improved.".toList true],
    "2025-01-01 10:00:00".toList⟩,
   ⟨"critique.txt".toList, .stream [.chunk "Gravity, perfected.".toList true],
    "2025-01-01 11:00:00".toList⟩]

/-- C5 witness: two concrete consecutive revisions preserve the
`physics-outline.txt` source reference, and the final artifact is
exactly the revision header of the second step (its timestamp and
critique name) over that source, followed by a body. -/
theorem revisions_preserve_source_reference_witness :
    (∃ raw',
      (reviseMany "outputs/physics/explanation.txt".toList c5Steps c5FS).fsOf
          "outputs/physics/explanation.txt".toList = some raw' ∧
        sourceRef raw' = some "physics-outline.txt".toList) ∧
    (∃ body,
      (reviseMany "outputs/physics/explanation.txt".toList c5Steps c5FS).fsOf
          "outputs/physics/explanation.txt".toList =
        some (Explainer.revHeader "2025-01-01 11:00:00".toList
          "physics-outline.txt".toList (pyBasename "critique.txt".toList) ++ body)) :=
  have h := revisions_preserve_source_reference "outputs/physics/explanation.txt".toList
    c5Steps c5FS c5Raw "physics-outline.txt".toList rfl (by decide) (by decide) (by decide)
  ⟨h.1,
   h.2 [⟨"critique.txt".toList, .stream [.chunk "Gravity, improved.".toList true],
          "2025-01-01 10:00:00".toList⟩]
     ⟨"critique.txt".toList, .stream [.chunk "Gravity, perfected.".toList true],
       "2025-01-01 11:00:00".toList⟩ rfl⟩

/-! ## The critic's iteration controller (claims C2, C4, C8) -/

namespace Critic

/-- The constant `ACTIVE_CRITIQUE_FILE` (critic.py line 45). -/
def ACTIVE_CRITIQUE_FILE : Str := "active_critique.txt".toList

/-- The constant `MAX_ITERATIONS` (critic.py line 46). -/
def MAX_ITERATIONS : Nat := 4

/-- The critique artifact path `save_critique` writes to (critic.py
lines 183–184): `active_critique.txt` next to the explanation, with
`os.path.abspath` modelled as the identity as before. -/
def critiquePathOf (explanation_path : Str) : Str :=
  joinPath (pyDirname explanation_path) ACTIVE_CRITIQUE_FILE

/-- The header `save_critique` writes (critic.py lines 186–194), with
the f-string newlines explicit; the iteration number is rendered in
decimal. -/
def critHeader (iteration : Nat) (ts : Str) : Str :=
  "ACTIVE CRITIQUE — Iteration ".toList ++ Nat.toDigits 10 iteration ++ '\n' ::
  ("Generated: ".toList ++ ts ++ '\n' ::
  (eq60 ++ '\n' :: '\n' :: []))

/-- The environment of one critic run: for each 1-based iteration
number, the backend's response to that iteration's critique request and
revision request, and the wall-clock timestamps read when saving that
iteration's critique and writing its revision.  (Responses may depend on
the iteration number; since every request the code sends is a function
of the run history, which the earlier responses determine, this loses no
generality.) -/
structure World where
  critResp : Nat → BackendOutcome
  revResp : Nat → BackendOutcome
  critTs : Nat → Str
  revTs : Nat → Str

/-- Terminal outcome of a critic run: `approved` and `capped` are
`sys.exit(0)`; `fatalErr` is any non-zero exit, including a failing
revise subprocess.  Each carries the final filesystem. -/
inductive RunResult where
  | approved (fs : FS)
  | capped (fs : FS)
  | fatalErr (e : Err) (fs : FS)

/-- Whether the run ended in the `Approved` terminal state. -/
def RunResult.isApprovedState : RunResult → Bool
  | .approved _ => true
  | _ => false

/-- Whether the run ended in the `Capped` terminal state. -/
def RunResult.isCappedState : RunResult → Bool
  | .capped _ => true
  | _ => false

/-- The filesystem at process exit. -/
def RunResult.finalFS : RunResult → FS
  | .approved fs => fs
  | .capped fs => fs
  | .fatalErr _ fs => fs

/-- The `for iteration in range(1, MAX_ITERATIONS + 1)` loop of
`critic.main` (critic.py lines 252–288) followed by the capped exit
(lines 290–297).  `fuel` is the number of remaining loop iterations and
`iter` the 1-based iteration number; the two returned numbers count
critique backend calls and revision-stage invocations.  The in-memory
`previous_critique` carry-over only changes the prompt text sent to the
backend, which the `World` already abstracts over, so it is not loop
state here. -/
def criticLoop (w : World) (explanation_path : Str) :
    Nat → Nat → FS → RunResult × Nat × Nat
  | 0, _, fs => (.capped fs, 0, 0)
  | fuel + 1, iter, fs =>
    match load_file fs explanation_path with
    | .error e => (.fatalErr e fs, 0, 0)
    | .ok _explanation =>
    match query_ollama (w.critResp iter) with
    | .error e => (.fatalErr e fs, 1, 0)
    | .ok critique =>
    if is_approved critique then
      (.approved
        (if (fs (critiquePathOf explanation_path)).isSome then
          fs.remove (critiquePathOf explanation_path)
        else fs), 1, 0)
    else
      match Explainer.module_revise
          (fs.write (critiquePathOf explanation_path)
            (critHeader iter (w.critTs iter) ++ critique))
          explanation_path (critiquePathOf explanation_path)
          (w.revResp iter) (w.revTs iter) with
      | .fatal e fs2 => (.fatalErr e fs2, 1, 1)
      | .ok fs2 =>
        match criticLoop w explanation_path fuel (iter + 1) fs2 with
        | (res, nc, nr) => (res, nc + 1, nr + 1)

/-- From `critic.main` (critic.py lines 232–297): check that the explanation
file exists, load the critic system prompt, then run the loop with cap
`MAX_ITERATIONS` starting at iteration 1. -/
def main (w : World) (fs : FS) (explanation_path : Str) : RunResult × Nat × Nat :=
  if (fs explanation_path).isNone then (.fatalErr .missingArtifact fs, 0, 0)
  else
    match load_file fs CRITIC_PROMPT_PATH with
    | .error e => (.fatalErr e fs, 0, 0)
    | .ok _prompt => criticLoop w explanation_path MAX_ITERATIONS 1 fs

end Critic

/-! ### Claim C4 (approved run leaves no critique artifact) -/

theorem criticLoop_approved_no_critique {w : Critic.World} {ep : Str} :
    ∀ (fuel iter : Nat) (fs fsOut : FS) (nc nr : Nat),
      Critic.criticLoop w ep fuel iter fs = (.approved fsOut, nc, nr) →
      fsOut (Critic.critiquePathOf ep) = none := by
  intro fuel
  induction fuel with
  | zero =>
    intro iter fs fsOut nc nr h
    simp [Critic.criticLoop] at h
  | succ fuel ih =>
    intro iter fs fsOut nc nr h
    simp only [Critic.criticLoop] at h
    split at h
    · simp at h
    · split at h
      · simp at h
      · split at h
        · simp only [Prod.mk.injEq, Critic.RunResult.approved.injEq] at h
          obtain ⟨hfs, _, _⟩ := h
          rw [← hfs]
          by_cases hex : (fs (Critic.critiquePathOf ep)).isSome = true
          · rw [if_pos hex]
            unfold FS.remove
            rw [if_pos rfl]
          · rw [if_neg hex]
            simpa using hex
        · split at h
          · simp at h
          · rename_i fs2 hrev
            simp only [Prod.mk.injEq] at h
            obtain ⟨hres, _, _⟩ := h
            exact ih (iter + 1) fs2 fsOut
              (Critic.criticLoop w ep fuel (iter + 1) fs2).2.1
              (Critic.criticLoop w ep fuel (iter + 1) fs2).2.2
              (by rw [← hres])

/-- C4.  Whenever a critic run terminates in the `Approved` state (which
exits with code 0), the single-slot critique artifact has been deleted
if it existed: afterwards no critique artifact file exists in the run
directory. -/
theorem approved_run_deletes_critique (w : Critic.World) (fs : FS) (ep : Str)
    (h : ((Critic.main w fs ep).1).isApprovedState = true) :
    ((Critic.main w fs ep).1).finalFS (Critic.critiquePathOf ep) = none := by
  unfold Critic.main at h ⊢
  split at h
  · simp [Critic.RunResult.isApprovedState] at h
  · rename_i hne
    rw [if_neg hne]
    cases hP : load_file fs CRITIC_PROMPT_PATH with
    | error e =>
      rw [hP] at h
      simp [Critic.RunResult.isApprovedState] at h
    | ok p =>
      rw [hP] at h
      have h' : ((Critic.criticLoop w ep Critic.MAX_ITERATIONS 1 fs).1).isApprovedState
          = true := h
      show ((Critic.criticLoop w ep Critic.MAX_ITERATIONS 1 fs).1).finalFS
        (Critic.critiquePathOf ep) = none
      cases hrun : (Critic.criticLoop w ep Critic.MAX_ITERATIONS 1 fs).1 with
      | approved fsOut =>
        exact criticLoop_approved_no_critique Critic.MAX_ITERATIONS 1 fs fsOut
          (Critic.criticLoop w ep Critic.MAX_ITERATIONS 1 fs).2.1
          (Critic.criticLoop w ep Critic.MAX_ITERATIONS 1 fs).2.2
          (by rw [← hrun])
      | capped fsOut =>
        rw [hrun] at h'
        simp [Critic.RunResult.isApprovedState] at h'
      | fatalErr e fsOut =>
        rw [hrun] at h'
        simp [Critic.RunResult.isApprovedState] at h'

/-- The world of the C4 witness: the backend approves immediately. -/
def c4World : Critic.World :=
  ⟨fun _ => .stream [.chunk "VERDICT: APPROVED — good work.".toList true],
   fun _ => .stream [.chunk "unused".toList true],
   fun _ => "2025-01-01 10:00:00".toList,
   fun _ => "2025-01-01 10:00:00".toList⟩

/-- The filesystem of the C4 witness. -/
def c4FS : FS := fun p =>
  if p = "outputs/topic/explanation.txt".toList then
    some "LECTURE EXPLANATION\nBody.".toList
  else if p = CRITIC_PROMPT_PATH then some "You are a critic.".toList
  else none

/-- C4 witness: a concrete immediately-approved run, with the critique
path empty afterwards. -/
theorem approved_run_deletes_critique_witness :
    ((Critic.main c4World c4FS "outputs/topic/explanation.txt".toList).1).isApprovedState
      = true ∧
    ((Critic.main c4World c4FS "outputs/topic/explanation.txt".toList).1).finalFS
      (Critic.critiquePathOf "outputs/topic/explanation.txt".toList) = none :=
  ⟨by decide, approved_run_deletes_critique c4World c4FS
    "outputs/topic/explanation.txt".toList (by decide)⟩

/-! ### Claims C2 and C8 (capped runs) -/

theorem module_revise_ok {fs : FS} {ep cp : Str} (ts : Str) {o : BackendOutcome}
    {rawE rawC rawP r : Str}
    (hE : fs ep = some rawE) (hEne : pyStrip rawE ≠ [])
    (hC : fs cp = some rawC) (hCne : pyStrip rawC ≠ [])
    (hP : fs REVISER_PROMPT_PATH = some rawP) (hPne : pyStrip rawP ≠ [])
    (hq : query_ollama o = .ok r) :
    Explainer.module_revise fs ep cp o ts =
      .ok (fs.write ep (Explainer.revHeader ts
        (Explainer.get_source_name (pyStrip rawE) ep) (pyBasename cp) ++ r)) := by
  have hLE : load_file fs ep = .ok (pyStrip rawE) := by
    simp [load_file, hE, hEne]
  have hLC : load_file fs cp = .ok (pyStrip rawC) := by
    simp [load_file, hC, hCne]
  have hLP : load_file fs REVISER_PROMPT_PATH = .ok (pyStrip rawP) := by
    simp [load_file, hP, hPne]
  unfold Explainer.module_revise
  rw [hLE, hLC, hLP, hq]

theorem critHeader_head (i : Nat) (ts body : Str) :
    Critic.critHeader i ts ++ body =
      'A' :: (("CTIVE CRITIQUE — Iteration ".toList ++ Nat.toDigits 10 i) ++ '\n' ::
        ("Generated: ".toList ++ ts ++ '\n' :: ((eq60 ++ '\n' :: '\n' :: []) ++ body))) := by
  unfold Critic.critHeader
  rw [show "ACTIVE CRITIQUE — Iteration ".toList =
    'A' :: "CTIVE CRITIQUE — Iteration ".toList from by decide]
  simp

theorem pyStrip_critHeader_ne_nil (i : Nat) (ts body : Str) :
    pyStrip (Critic.critHeader i ts ++ body) ≠ [] := by
  rw [critHeader_head]
  exact pyStrip_cons_ne_nil (by decide)

theorem revHeader_head (ts s cb body : Str) :
    Explainer.revHeader ts s cb ++ body =
      'L' :: ("ECTURE EXPLANATION".toList ++ '\n' ::
        (eq60 ++ '\n' ::
        ("Revised   : ".toList ++ ts ++ '\n' ::
        ("Model     : ".toList ++ MODEL_NAME ++ '\n' ::
        ("Source    : ".toList ++ s ++ '\n' ::
        ("Critique  : ".toList ++ cb ++ '\n' ::
        ((eq60 ++ '\n' :: '\n' :: []) ++ body))))))) := by
  unfold Explainer.revHeader
  rw [show "LECTURE EXPLANATION".toList =
    'L' :: "ECTURE EXPLANATION".toList from by decide]
  simp

theorem pyStrip_revHeader_ne_nil (ts s cb body : Str) :
    pyStrip (Explainer.revHeader ts s cb ++ body) ≠ [] := by
  rw [revHeader_head]
  exact pyStrip_cons_ne_nil (by decide)

theorem criticLoop_one_iter {w : Critic.World} {ep : Str}
    (hcp_ep : Critic.critiquePathOf ep ≠ ep)
    (hcp_rp : Critic.critiquePathOf ep ≠ REVISER_PROMPT_PATH)
    (hep_rp : ep ≠ REVISER_PROMPT_PATH)
    {iter : Nat} {fs : FS} {raw praw c r : Str}
    (hfe : fs ep = some raw) (hfene : pyStrip raw ≠ [])
    (hfr : fs REVISER_PROMPT_PATH = some praw) (hfrne : pyStrip praw ≠ [])
    (hc : query_ollama (w.critResp iter) = .ok c) (hna : Critic.is_approved c = false)
    (hr : query_ollama (w.revResp iter) = .ok r) (fuel : Nat) :
    ∃ fs2,
      Critic.criticLoop w ep (fuel + 1) iter fs =
        ((Critic.criticLoop w ep fuel (iter + 1) fs2).1,
         (Critic.criticLoop w ep fuel (iter + 1) fs2).2.1 + 1,
         (Critic.criticLoop w ep fuel (iter + 1) fs2).2.2 + 1) ∧
      (∃ e2, fs2 ep = some e2 ∧ pyStrip e2 ≠ []) ∧
      fs2 (Critic.critiquePathOf ep) =
        some (Critic.critHeader iter (w.critTs iter) ++ c) ∧
      fs2 REVISER_PROMPT_PATH = some praw ∧
      (∀ q, q ≠ ep → q ≠ Critic.critiquePathOf ep → fs2 q = fs q) := by
  have hload : load_file fs ep = .ok (pyStrip raw) := by simp [load_file, hfe, hfene]
  have hfs1ep : (fs.write (Critic.critiquePathOf ep)
      (Critic.critHeader iter (w.critTs iter) ++ c)) ep = some raw := by
    unfold FS.write
    rw [if_neg (fun hh => hcp_ep hh.symm)]
    exact hfe
  have hfs1cp : (fs.write (Critic.critiquePathOf ep)
      (Critic.critHeader iter (w.critTs iter) ++ c)) (Critic.critiquePathOf ep) =
      some (Critic.critHeader iter (w.critTs iter) ++ c) := by
    unfold FS.write
    rw [if_pos rfl]
  have hfs1rp : (fs.write (Critic.critiquePathOf ep)
      (Critic.critHeader iter (w.critTs iter) ++ c)) REVISER_PROMPT_PATH = some praw := by
    unfold FS.write
    rw [if_neg (fun hh => hcp_rp hh.symm)]
    exact hfr
  have hrev := module_revise_ok (w.revTs iter) hfs1ep hfene hfs1cp
    (pyStrip_critHeader_ne_nil iter (w.critTs iter) c) hfs1rp hfrne hr
  refine ⟨(fs.write (Critic.critiquePathOf ep)
      (Critic.critHeader iter (w.critTs iter) ++ c)).write ep
      (Explainer.revHeader (w.revTs iter)
        (Explainer.get_source_name (pyStrip raw) ep)
        (pyBasename (Critic.critiquePathOf ep)) ++ r), ?_, ?_, ?_, ?_, ?_⟩
  · simp only [Critic.criticLoop, hload, hc]
    rw [if_neg (by simp [hna]), hrev]
  · refine ⟨Explainer.revHeader (w.revTs iter)
        (Explainer.get_source_name (pyStrip raw) ep)
        (pyBasename (Critic.critiquePathOf ep)) ++ r, ?_,
      pyStrip_revHeader_ne_nil _ _ _ _⟩
    show FS.write _ ep _ ep = _
    unfold FS.write
    rw [if_pos rfl]
  · show FS.write _ ep _ (Critic.critiquePathOf ep) = _
    unfold FS.write
    rw [if_neg hcp_ep]
    exact hfs1cp
  · show FS.write _ ep _ REVISER_PROMPT_PATH = _
    unfold FS.write
    rw [if_neg (fun hh => hep_rp hh.symm)]
    exact hfs1rp
  · intro q hq1 hq2
    show FS.write _ ep _ q = _
    unfold FS.write
    rw [if_neg hq1, if_neg hq2]

theorem criticLoop_capped_aux {w : Critic.World} {ep : Str}
    (hcp_ep : Critic.critiquePathOf ep ≠ ep)
    (hcp_rp : Critic.critiquePathOf ep ≠ REVISER_PROMPT_PATH)
    (hep_rp : ep ≠ REVISER_PROMPT_PATH) :
    ∀ (fuel iter : Nat) (fs : FS),
      (∀ i, iter ≤ i → i ≤ iter + fuel →
        ∃ c, query_ollama (w.critResp i) = .ok c ∧ Critic.is_approved c = false) →
      (∀ i, iter ≤ i → i ≤ iter + fuel → ∃ r, query_ollama (w.revResp i) = .ok r) →
      (∃ raw, fs ep = some raw ∧ pyStrip raw ≠ []) →
      (∃ praw, fs REVISER_PROMPT_PATH = some praw ∧ pyStrip praw ≠ []) →
      ∃ fsOut,
        Critic.criticLoop w ep (fuel + 1) iter fs = (.capped fsOut, fuel + 1, fuel + 1) ∧
        (∃ c, query_ollama (w.critResp (iter + fuel)) = .ok c ∧
          fsOut (Critic.critiquePathOf ep) =
            some (Critic.critHeader (iter + fuel) (w.critTs (iter + fuel)) ++ c)) ∧
        (∃ e2, fsOut ep = some e2 ∧ pyStrip e2 ≠ []) ∧
        (∀ q, q ≠ ep → q ≠ Critic.critiquePathOf ep → fsOut q = fs q) := by
  intro fuel
  induction fuel with
  | zero =>
    rintro iter fs hcrit hrev ⟨raw, hfe, hfene⟩ ⟨praw, hfr, hfrne⟩
    obtain ⟨c, hc, hna⟩ := hcrit iter le_rfl (by omega)
    obtain ⟨r, hr⟩ := hrev iter le_rfl (by omega)
    obtain ⟨fs2, hloop, hfs2ep, hfs2cp, hfs2rp, hframe⟩ :=
      criticLoop_one_iter hcp_ep hcp_rp hep_rp hfe hfene hfr hfrne hc hna hr 0
    refine ⟨fs2, ?_, ?_, hfs2ep, hframe⟩
    · rw [hloop]
      simp [Critic.criticLoop]
    · rw [Nat.add_zero]
      exact ⟨c, hc, hfs2cp⟩
  | succ fuel ih =>
    rintro iter fs hcrit hrev ⟨raw, hfe, hfene⟩ ⟨praw, hfr, hfrne⟩
    obtain ⟨c, hc, hna⟩ := hcrit iter le_rfl (by omega)
    obtain ⟨r, hr⟩ := hrev iter le_rfl (by omega)
    obtain ⟨fs2, hloop, hfs2ep, hfs2cp, hfs2rp, hframe⟩ :=
      criticLoop_one_iter hcp_ep hcp_rp hep_rp hfe hfene hfr hfrne hc hna hr (fuel + 1)
    obtain ⟨fsOut, hloop2, hcrq, hfsOutep, hframe2⟩ :=
      ih (iter + 1) fs2
        (fun i h1 h2 => hcrit i (by omega) (by omega))
        (fun i h1 h2 => hrev i (by omega) (by omega))
        hfs2ep ⟨praw, hfs2rp, hfrne⟩
    refine ⟨fsOut, ?_, ?_, hfsOutep, ?_⟩
    · rw [hloop, hloop2]
    · have hidx : iter + 1 + fuel = iter + (fuel + 1) := by omega
      rw [← hidx]
      exact hcrq
    · intro q hq1 hq2
      rw [hframe2 q hq1 hq2, hframe q hq1 hq2]

theorem capped_main_spec {w : Critic.World} {fs : FS} {ep : Str}
    (hcp_ep : Critic.critiquePathOf ep ≠ ep)
    (hcp_rp : Critic.critiquePathOf ep ≠ REVISER_PROMPT_PATH)
    (hep_rp : ep ≠ REVISER_PROMPT_PATH)
    (hex : ∃ raw, fs ep = some raw ∧ pyStrip raw ≠ [])
    (hcpr : ∃ craw, fs CRITIC_PROMPT_PATH = some craw ∧ pyStrip craw ≠ [])
    (hrpr : ∃ praw, fs REVISER_PROMPT_PATH = some praw ∧ pyStrip praw ≠ [])
    (hcrit : ∀ i, 1 ≤ i → i ≤ Critic.MAX_ITERATIONS →
      ∃ c, query_ollama (w.critResp i) = .ok c ∧ Critic.is_approved c = false)
    (hrev : ∀ i, 1 ≤ i → i ≤ Critic.MAX_ITERATIONS →
      ∃ r, query_ollama (w.revResp i) = .ok r) :
    ∃ fsOut,
      Critic.main w fs ep = (.capped fsOut, Critic.MAX_ITERATIONS, Critic.MAX_ITERATIONS) ∧
      (∃ c, query_ollama (w.critResp Critic.MAX_ITERATIONS) = .ok c ∧
        fsOut (Critic.critiquePathOf ep) =
          some (Critic.critHeader Critic.MAX_ITERATIONS
            (w.critTs Critic.MAX_ITERATIONS) ++ c)) ∧
      (∃ e2, fsOut ep = some e2 ∧ pyStrip e2 ≠ []) ∧
      (∀ q, q ≠ ep → q ≠ Critic.critiquePathOf ep → fsOut q = fs q) := by
  obtain ⟨raw, hfe, hfene⟩ := hex
  obtain ⟨craw, hcf, hcfne⟩ := hcpr
  have hmax : Critic.MAX_ITERATIONS = 3 + 1 := rfl
  obtain ⟨fsOut, hloop, hcrq, hfsOutep, hframe⟩ :=
    criticLoop_capped_aux hcp_ep hcp_rp hep_rp 3 1 fs
      (fun i h1 h2 => hcrit i h1 (by rw [hmax]; omega))
      (fun i h1 h2 => hrev i h1 (by rw [hmax]; omega))
      ⟨raw, hfe, hfene⟩ hrpr
  refine ⟨fsOut, ?_, ?_, hfsOutep, hframe⟩
  · unfold Critic.main
    rw [if_neg (by simp [hfe])]
    rw [show load_file fs CRITIC_PROMPT_PATH = .ok (pyStrip craw) from by
      simp [load_file, hcf, hcfne]]
    show Critic.criticLoop w ep Critic.MAX_ITERATIONS 1 fs =
      (.capped fsOut, Critic.MAX_ITERATIONS, Critic.MAX_ITERATIONS)
    rw [hmax]
    exact hloop
  · have h13 : (1 : Nat) + 3 = Critic.MAX_ITERATIONS := rfl
    rw [← h13]
    exact hcrq

/-- C2.  A run whose backend answers every critique request with a
non-approving critique and every revision request with a revision
terminates `Capped` with exit code 0 after exactly `MAX_ITERATIONS`
critique calls and `MAX_ITERATIONS` revision calls (within the claimed
"N−1 or N": revision is in fact never skipped — the final capped
iteration also revises), and both the explanation artifact and the
critique artifact remain on disk. -/
theorem capped_run_counts_and_artifacts (w : Critic.World) (fs : FS) (ep : Str)
    (hcp_ep : Critic.critiquePathOf ep ≠ ep)
    (hcp_rp : Critic.critiquePathOf ep ≠ REVISER_PROMPT_PATH)
    (hep_rp : ep ≠ REVISER_PROMPT_PATH)
    (hex : ∃ raw, fs ep = some raw ∧ pyStrip raw ≠ [])
    (hcpr : ∃ craw, fs CRITIC_PROMPT_PATH = some craw ∧ pyStrip craw ≠ [])
    (hrpr : ∃ praw, fs REVISER_PROMPT_PATH = some praw ∧ pyStrip praw ≠ [])
    (hcrit : ∀ i, 1 ≤ i → i ≤ Critic.MAX_ITERATIONS →
      ∃ c, query_ollama (w.critResp i) = .ok c ∧ Critic.is_approved c = false)
    (hrev : ∀ i, 1 ≤ i → i ≤ Critic.MAX_ITERATIONS →
      ∃ r, query_ollama (w.revResp i) = .ok r) :
    ((Critic.main w fs ep).1).isCappedState = true ∧
    (Critic.main w fs ep).2.1 = Critic.MAX_ITERATIONS ∧
    (Critic.main w fs ep).2.2 = Critic.MAX_ITERATIONS ∧
    (((Critic.main w fs ep).1).finalFS ep).isSome = true ∧
    (((Critic.main w fs ep).1).finalFS (Critic.critiquePathOf ep)).isSome = true := by
  obtain ⟨fsOut, hmain, ⟨c, hc, hcpv⟩, ⟨e2, he2, _⟩, _⟩ :=
    capped_main_spec hcp_ep hcp_rp hep_rp hex hcpr hrpr hcrit hrev
  rw [hmain]
  refine ⟨rfl, rfl, rfl, ?_, ?_⟩
  · show (fsOut ep).isSome = true
    rw [he2]
    rfl
  · show (fsOut (Critic.critiquePathOf ep)).isSome = true
    rw [hcpv]
    rfl

/-- C8.  The same capped run leaves the single-slot critique artifact
recording iteration number `MAX_ITERATIONS` in its header, and writes no
path other than the explanation and that single critique slot — so
exactly one critique artifact exists when the run directory started
without stray ones. -/
theorem capped_run_critique_iteration (w : Critic.World) (fs : FS) (ep : Str)
    (hcp_ep : Critic.critiquePathOf ep ≠ ep)
    (hcp_rp : Critic.critiquePathOf ep ≠ REVISER_PROMPT_PATH)
    (hep_rp : ep ≠ REVISER_PROMPT_PATH)
    (hex : ∃ raw, fs ep = some raw ∧ pyStrip raw ≠ [])
    (hcpr : ∃ craw, fs CRITIC_PROMPT_PATH = some craw ∧ pyStrip craw ≠ [])
    (hrpr : ∃ praw, fs REVISER_PROMPT_PATH = some praw ∧ pyStrip praw ≠ [])
    (hcrit : ∀ i, 1 ≤ i → i ≤ Critic.MAX_ITERATIONS →
      ∃ c, query_ollama (w.critResp i) = .ok c ∧ Critic.is_approved c = false)
    (hrev : ∀ i, 1 ≤ i → i ≤ Critic.MAX_ITERATIONS →
      ∃ r, query_ollama (w.revResp i) = .ok r) :
    ((Critic.main w fs ep).1).isCappedState = true ∧
    (∃ c, query_ollama (w.critResp Critic.MAX_ITERATIONS) = .ok c ∧
      ((Critic.main w fs ep).1).finalFS (Critic.critiquePathOf ep) =
        some (Critic.critHeader Critic.MAX_ITERATIONS
          (w.critTs Critic.MAX_ITERATIONS) ++ c)) ∧
    (∀ q, q ≠ ep → q ≠ Critic.critiquePathOf ep →
      ((Critic.main w fs ep).1).finalFS q = fs q) := by
  obtain ⟨fsOut, hmain, hcpv, _, hframe⟩ :=
    capped_main_spec hcp_ep hcp_rp hep_rp hex hcpr hrpr hcrit hrev
  rw [hmain]
  exact ⟨rfl, hcpv, hframe⟩

/-- The world of the C2/C8 witnesses: the backend always finds issues
and always returns a revision. -/
def c2World : Critic.World :=
  ⟨fun _ => .stream [.chunk "ISSUES: needs more depth.".toList true],
   fun _ => .stream [.chunk "Revised explanation text.".toList true],
   fun _ => "2025-01-01 10:00:00".toList,
   fun _ => "2025-01-01 10:05:00".toList⟩

/-- The filesystem of the C2/C8 witnesses. -/
def c2FS : FS := fun p =>
  if p = "outputs/topic/explanation.txt".toList then
    some "LECTURE EXPLANATION\nSource    : outline.txt\nBody.".toList
  else if p = CRITIC_PROMPT_PATH then some "You are a critic.".toList
  else if p = REVISER_PROMPT_PATH then some "You are a reviser.".toList
  else none

/-- C2 witness: a concrete never-approving run is capped with four
critique calls and four revision calls. -/
theorem capped_run_counts_and_artifacts_witness :
    ((Critic.main c2World c2FS "outputs/topic/explanation.txt".toList).1).isCappedState
      = true ∧
    (Critic.main c2World c2FS "outputs/topic/explanation.txt".toList).2.1
      = Critic.MAX_ITERATIONS ∧
    (Critic.main c2World c2FS "outputs/topic/explanation.txt".toList).2.2
      = Critic.MAX_ITERATIONS :=
  have h := capped_run_counts_and_artifacts c2World c2FS
    "outputs/topic/explanation.txt".toList
    (by decide) (by decide) (by decide)
    ⟨_, rfl, by decide⟩ ⟨_, rfl, by decide⟩ ⟨_, rfl, by decide⟩
    (fun i _ _ => ⟨_, rfl, by decide⟩) (fun i _ _ => ⟨_, rfl⟩)
  ⟨h.1, h.2.1, h.2.2.1⟩

/-- C8 witness: the same concrete run leaves the critique artifact
recording iteration 4 and touches no third path. -/
theorem capped_run_critique_iteration_witness :
    ((Critic.main c2World c2FS "outputs/topic/explanation.txt".toList).1).isCappedState
      = true ∧
    (∃ c, query_ollama (c2World.critResp Critic.MAX_ITERATIONS) = .ok c ∧
      ((Critic.main c2World c2FS "outputs/topic/explanation.txt".toList).1).finalFS
        (Critic.critiquePathOf "outputs/topic/explanation.txt".toList) =
        some (Critic.critHeader Critic.MAX_ITERATIONS
          (c2World.critTs Critic.MAX_ITERATIONS) ++ c)) ∧
    ((Critic.main c2World c2FS "outputs/topic/explanation.txt".toList).1).finalFS
      CRITIC_PROMPT_PATH = c2FS CRITIC_PROMPT_PATH :=
  have h := capped_run_critique_iteration c2World c2FS
    "outputs/topic/explanation.txt".toList
    (by decide) (by decide) (by decide)
    ⟨_, rfl, by decide⟩ ⟨_, rfl, by decide⟩ ⟨_, rfl, by decide⟩
    (fun i _ _ => ⟨_, rfl, by decide⟩) (fun i _ _ => ⟨_, rfl⟩)
  ⟨h.1, h.2.1, h.2.2 CRITIC_PROMPT_PATH (by decide) (by decide)⟩

end TopicExplainer
